import Mathlib

/-!
# Verification of the jsonl_gzip_logger write/read paths

Shallow embedding of `src/lib.rs`: the `LogEntry` record, its serde_json
encoding as one JSON line, the write path (`Logger::log` / `Logger::flush` /
`init`) and the read path (`LogEntryIter::next` / iteration).

Modelling conventions:
* Byte streams are modelled after gzip decompression and UTF-8 decoding as
  `List Char` (the spec treats the compression codec as an opaque streaming
  byte transformer, so the content written to the compressing sink and the
  content read from the decompressing source are identified).
* The serde_json codec (declared an opaque external collaborator by the
  spec) is embedded as an executable encoder producing serde_json's exact
  compact output and a recursive-descent parser for the JSON subset the
  format uses (unsigned integers, strings with the full serde_json escape
  grammar, objects), with serde_json's whitespace and string-escape rules.
* Fallible effects (file creation, lock acquisition, IO write results) are
  supplied as explicit environment values; panics (`unwrap` on `Err`) are an
  explicit outcome constructor.
-/

/-- Log severity, mirroring `log::Level` (`Error = 1` .. `Trace = 5`). -/
inductive Level where
  | error
  | warn
  | info
  | debug
  | trace
deriving DecidableEq, Repr

/-- The numeric value of a `log::Level` (its `usize` representation). -/
def Level.toNat : Level → Nat
  | .error => 1
  | .warn => 2
  | .info => 3
  | .debug => 4
  | .trace => 5

/-- Maximum-severity filter, mirroring `log::LevelFilter` (`Off = 0` .. `Trace = 5`). -/
inductive LevelFilter where
  | off
  | error
  | warn
  | info
  | debug
  | trace
deriving DecidableEq, Repr

/-- The numeric value of a `log::LevelFilter`. -/
def LevelFilter.toNat : LevelFilter → Nat
  | .off => 0
  | .error => 1
  | .warn => 2
  | .info => 3
  | .debug => 4
  | .trace => 5

/-- The uppercase serialized name of a severity (`log::Level`'s serde
serialization emits the static uppercase name string). -/
def levelName : Level → List Char
  | .error => ['E', 'R', 'R', 'O', 'R']
  | .warn => ['W', 'A', 'R', 'N']
  | .info => ['I', 'N', 'F', 'O']
  | .debug => ['D', 'E', 'B', 'U', 'G']
  | .trace => ['T', 'R', 'A', 'C', 'E']

/-- `std::time::Duration`: whole seconds (`u64`) plus sub-second nanoseconds
(`u32`, normalised below `10^9` for every value the std constructors build). -/
structure Duration where
  secs : Nat
  nanos : Nat
deriving DecidableEq, Repr

/-- A log from a log file (`LogEntry` in `src/lib.rs`). -/
structure LogEntry where
  /-- Time offset of this log entry from the start of logging. -/
  offset : Duration
  /-- Logging level of this log entry. -/
  level : Level
  /-- Target of this log entry. -/
  target : List Char
  /-- Message of this log entry. -/
  body : List Char
deriving DecidableEq, Repr

/-- A `Duration` that `std::time::Duration` can actually represent:
`secs` fits in `u64` and `nanos` is a normalised sub-second count. -/
def ValidDuration (d : Duration) : Prop :=
  d.secs < 2 ^ 64 ∧ d.nanos < 1000000000

/-- A `LogEntry` whose offset is a representable `std::time::Duration`
(targets and bodies are arbitrary strings). -/
def ValidEntry (e : LogEntry) : Prop :=
  ValidDuration e.offset

instance (d : Duration) : Decidable (ValidDuration d) := by
  unfold ValidDuration; infer_instance

instance (e : LogEntry) : Decidable (ValidEntry e) := by
  unfold ValidEntry; infer_instance

/-! ## serde_json string escaping (serializer side) -/

/-- Lowercase hex digit characters, as serde_json's escape table emits them. -/
def hexDigitChar : Nat → Char
  | 0 => '0' | 1 => '1' | 2 => '2' | 3 => '3'
  | 4 => '4' | 5 => '5' | 6 => '6' | 7 => '7'
  | 8 => '8' | 9 => '9' | 10 => 'a' | 11 => 'b'
  | 12 => 'c' | 13 => 'd' | 14 => 'e' | _ => 'f'

/-- serde_json's escaping of one character inside a JSON string: quote and
backslash get two-character escapes, the five named control characters get
their short escapes, every other control character below `0x20` becomes a
`\u00XX` escape, and everything else is emitted verbatim. -/
def escapeChar (c : Char) : List Char :=
  if c = '"' then ['\\', '"']
  else if c = '\\' then ['\\', '\\']
  else if c = '\x08' then ['\\', 'b']
  else if c = '\t' then ['\\', 't']
  else if c = '\n' then ['\\', 'n']
  else if c = '\x0c' then ['\\', 'f']
  else if c = '\r' then ['\\', 'r']
  else if c.toNat < 0x20 then
    ['\\', 'u', '0', '0', hexDigitChar (c.toNat / 16), hexDigitChar (c.toNat % 16)]
  else [c]

/-- serde_json's escaping of a whole string body (without the delimiting
quotes). -/
def escapeString : List Char → List Char
  | [] => []
  | c :: rest => escapeChar c ++ escapeString rest

/-! ## Decimal printing of unsigned integers (serde_json number output)

Implemented with an explicit fuel argument so the definition is structurally
recursive (hence kernel-reducible); `natToDigits` supplies ample fuel. -/

/-- One decimal digit character. -/
def digitChar : Nat → Char
  | 0 => '0' | 1 => '1' | 2 => '2' | 3 => '3' | 4 => '4'
  | 5 => '5' | 6 => '6' | 7 => '7' | 8 => '8' | _ => '9'

/-- Fuelled most-significant-first decimal digit printer. -/
def natToDigitsAux : Nat → Nat → List Char
  | 0, _ => []
  | f + 1, n =>
    if n < 10 then [digitChar n]
    else natToDigitsAux f (n / 10) ++ [digitChar (n % 10)]

/-- The decimal digits of `n`, most significant first, exactly as
serde_json prints an unsigned integer. -/
def natToDigits (n : Nat) : List Char :=
  natToDigitsAux (n + 1) n

/-! ## The serde_json encoding of a `LogEntry`

serde_json's compact serializer emits the four fields in declaration order
with no interior whitespace:
`{"offset":{"secs":S,"nanos":N},"level":"L","target":"T","body":"B"}`.
The literal skeleton pieces are spelled as explicit character lists. -/

/-- Skeleton before the `secs` digits. -/
def litOffset : List Char :=
  ['\x7b', '"', 'o', 'f', 'f', 's', 'e', 't', '"', ':',
   '\x7b', '"', 's', 'e', 'c', 's', '"', ':']

/-- Skeleton between the `secs` digits and the `nanos` digits. -/
def litNanos : List Char :=
  [',', '"', 'n', 'a', 'n', 'o', 's', '"', ':']

/-- Skeleton between the `nanos` digits and the level name. -/
def litLevel : List Char :=
  ['\x7d', ',', '"', 'l', 'e', 'v', 'e', 'l', '"', ':', '"']

/-- Skeleton between the level name and the escaped target. -/
def litTarget : List Char :=
  ['"', ',', '"', 't', 'a', 'r', 'g', 'e', 't', '"', ':', '"']

/-- Skeleton between the escaped target and the escaped body. -/
def litBody : List Char :=
  ['"', ',', '"', 'b', 'o', 'd', 'y', '"', ':', '"']

/-- Closing skeleton. -/
def litEnd : List Char :=
  ['"', '\x7d']

/-- The exact byte sequence `serde_json::to_writer`/`to_string` produces for
a `LogEntry` (no trailing line terminator). -/
def encodeLogEntry (e : LogEntry) : List Char :=
  litOffset ++ natToDigits e.offset.secs ++
  litNanos ++ natToDigits e.offset.nanos ++
  litLevel ++ levelName e.level ++
  litTarget ++ escapeString e.target ++
  litBody ++ escapeString e.body ++
  litEnd

/-! ## The serde_json parser (deserializer side)

`serde_json::from_slice::<LogEntry>` first drives a JSON parser; we embed it
as a recursive-descent parser into a JSON value tree covering the grammar
this format can contain (unsigned integers, strings, objects), honouring
serde_json's whitespace rules, its full string-escape grammar (including
`\uXXXX` with surrogate pairs) and its rejection of raw control characters
inside strings. -/

/-- JSON value tree for the subset of JSON this log format uses. -/
inductive Json where
  | num (n : Nat)
  | str (s : List Char)
  | obj (kvs : List (List Char × Json))

/-- JSON insignificant whitespace (space, tab, line feed, carriage return). -/
def isWsC (c : Char) : Bool :=
  c = ' ' || c = '\t' || c = '\n' || c = '\r'

/-- Skip insignificant whitespace, as serde_json does between tokens. -/
def skipWs : List Char → List Char
  | [] => []
  | c :: rest => if isWsC c then skipWs rest else c :: rest

/-- ASCII decimal digit test. -/
def isDigitC (c : Char) : Bool :=
  48 ≤ c.toNat && c.toNat ≤ 57

/-- Accumulating decimal-digit reader: consumes the longest digit run. -/
def parseNatLoop (acc : Nat) : List Char → Nat × List Char
  | [] => (acc, [])
  | c :: rest =>
    if isDigitC c then parseNatLoop (acc * 10 + (c.toNat - 48)) rest
    else (acc, c :: rest)

/-- Read an unsigned decimal integer (at least one digit). -/
def parseNat : List Char → Option (Nat × List Char)
  | [] => none
  | c :: rest =>
    if isDigitC c then some (parseNatLoop (c.toNat - 48) rest)
    else none

/-- Value of one hex digit (both cases accepted, as in serde_json). -/
def hexVal (c : Char) : Option Nat :=
  if 48 ≤ c.toNat ∧ c.toNat ≤ 57 then some (c.toNat - 48)
  else if 97 ≤ c.toNat ∧ c.toNat ≤ 102 then some (c.toNat - 87)
  else if 65 ≤ c.toNat ∧ c.toNat ≤ 70 then some (c.toNat - 55)
  else none

/-- Value of a four-hex-digit escape payload. -/
def hex4 (a b c d : Char) : Option Nat :=
  match hexVal a, hexVal b, hexVal c, hexVal d with
  | some x, some y, some z, some w => some (x * 4096 + y * 256 + z * 16 + w)
  | _, _, _, _ => none

/-- The character denoted by a one-character JSON escape, if legal. -/
def simpleEscape (e : Char) : Option Char :=
  if e = '"' then some '"'
  else if e = '\\' then some '\\'
  else if e = '/' then some '/'
  else if e = 'b' then some '\x08'
  else if e = 'f' then some '\x0c'
  else if e = 'n' then some '\n'
  else if e = 'r' then some '\r'
  else if e = 't' then some '\t'
  else none

/-- Read a four-hex-digit group from the input. -/
def parseHex4 : List Char → Option (Nat × List Char)
  | a :: b :: c :: d :: rest => (hex4 a b c d).map (fun n => (n, rest))
  | _ => none

/-- Decode a `\uXXXX` escape payload (the input starts right after `\u`),
pairing a high surrogate with a following `\uXXXX` low surrogate and
rejecting lone surrogates, as serde_json does. -/
def unescapeU (r : List Char) : Option (Char × List Char) :=
  match parseHex4 r with
  | none => none
  | some (n, r2) =>
    if n < 0xD800 then some (Char.ofNat n, r2)
    else if n ≤ 0xDBFF then
      match r2 with
      | bs :: uu :: r3 =>
        if bs = '\\' then
          if uu = 'u' then
            match parseHex4 r3 with
            | some (m, r4) =>
              if 0xDC00 ≤ m ∧ m ≤ 0xDFFF then
                some (Char.ofNat (0x10000 + (n - 0xD800) * 0x400 + (m - 0xDC00)), r4)
              else none
            | none => none
          else none
        else none
      | _ => none
    else if n ≤ 0xDFFF then none
    else some (Char.ofNat n, r2)

/-- Decode one escape sequence (the input starts right after the
backslash), returning the denoted character and the remaining input. -/
def unescape : List Char → Option (Char × List Char)
  | [] => none
  | e :: r =>
    if e = 'u' then unescapeU r
    else (simpleEscape e).map (fun ec => (ec, r))

/-- Parse the body of a JSON string after the opening quote, returning the
unescaped characters and the input remaining after the closing quote.
Mirrors serde_json: raw control characters are rejected, escapes are
decoded via `unescape`. The fuel argument makes the recursion structural;
one unit is spent per decoded character, so `input.length + 1` is ample. -/
def parseStringBody : Nat → List Char → Option (List Char × List Char)
  | 0, _ => none
  | _ + 1, [] => none
  | fuel + 1, c :: rest =>
    if c = '"' then some ([], rest)
    else if c = '\\' then
      match unescape rest with
      | some (ec, r2) => (parseStringBody fuel r2).map (fun p => (ec :: p.1, p.2))
      | none => none
    else if c.toNat < 0x20 then none
    else (parseStringBody fuel rest).map (fun p => (c :: p.1, p.2))

/-- Parse `"key"` then `:` (with serde_json's whitespace skipping),
returning the key and the input after the colon. -/
def parseKeyColon (input : List Char) : Option (List Char × List Char) :=
  match skipWs input with
  | [] => none
  | c :: rest =>
    if c = '"' then
      match parseStringBody (rest.length + 1) rest with
      | some (key, r1) =>
        match skipWs r1 with
        | c2 :: r2 => if c2 = ':' then some (key, r2) else none
        | [] => none
      | none => none
    else none

mutual

/-- Parse one JSON value (number, string, or object), fuelled; the fuel
bounds the value-nesting recursion and is always supplied amply. -/
def parseValue : Nat → List Char → Option (Json × List Char)
  | 0, _ => none
  | fuel + 1, input =>
    match skipWs input with
    | [] => none
    | c :: rest =>
      if c = '"' then
        (parseStringBody (rest.length + 1) rest).map (fun p => (Json.str p.1, p.2))
      else if c = '\x7b' then
        match skipWs rest with
        | [] => none
        | c2 :: r2 =>
          if c2 = '\x7d' then some (Json.obj [], r2)
          else (parseMembers fuel (c2 :: r2)).map (fun p => (Json.obj p.1, p.2))
      else if isDigitC c then
        (parseNat (c :: rest)).map (fun p => (Json.num p.1, p.2))
      else none

/-- Parse a non-empty sequence of `"key": value` members followed by the
closing brace, returning the members and the input after the brace. -/
def parseMembers : Nat → List Char → Option (List (List Char × Json) × List Char)
  | 0, _ => none
  | fuel + 1, input =>
    match parseKeyColon input with
    | none => none
    | some (key, r2) =>
      match parseValue fuel r2 with
      | none => none
      | some (v, r3) =>
        match skipWs r3 with
        | [] => none
        | c3 :: r4 =>
          if c3 = ',' then
            (parseMembers fuel r4).map (fun p => ((key, v) :: p.1, p.2))
          else if c3 = '\x7d' then some ([(key, v)], r4)
          else none

end

/-! ## From a JSON value to a `LogEntry`

Embeds the derived `Deserialize` for `LogEntry` (fields looked up by name,
order-independent, unknown fields ignored), serde's `Deserialize` for
`std::time::Duration` (`secs: u64`, `nanos: u32`, checked normalisation)
and the log crate's `Deserialize` for `Level` (case-insensitive match
against the level names). -/

/-- Key `secs`. -/
def secsKey : List Char := ['s', 'e', 'c', 's']

/-- Key `nanos`. -/
def nanosKey : List Char := ['n', 'a', 'n', 'o', 's']

/-- Key `offset`. -/
def offsetKey : List Char := ['o', 'f', 'f', 's', 'e', 't']

/-- Key `level`. -/
def levelKey : List Char := ['l', 'e', 'v', 'e', 'l']

/-- Key `target`. -/
def targetKey : List Char := ['t', 'a', 'r', 'g', 'e', 't']

/-- Key `body`. -/
def bodyKey : List Char := ['b', 'o', 'd', 'y']

/-- First value bound to a key in a JSON object's member list. -/
def lookupKey : List (List Char × Json) → List Char → Option Json
  | [], _ => none
  | (k, v) :: rest, key => if k = key then some v else lookupKey rest key

/-- ASCII lowercasing on code points, for case-insensitive level names. -/
def lowerNat (n : Nat) : Nat :=
  if 65 ≤ n ∧ n ≤ 90 then n + 32 else n

/-- Case-insensitive ASCII string comparison (`eq_ignore_ascii_case`). -/
def eqIgnoreAsciiCase (a b : List Char) : Bool :=
  a.map (fun c => lowerNat c.toNat) == b.map (fun c => lowerNat c.toNat)

/-- The log crate's parse of a severity name (`FromStr for Level`,
case-insensitive). -/
def levelFromName (s : List Char) : Option Level :=
  if eqIgnoreAsciiCase s (levelName .error) then some .error
  else if eqIgnoreAsciiCase s (levelName .warn) then some .warn
  else if eqIgnoreAsciiCase s (levelName .info) then some .info
  else if eqIgnoreAsciiCase s (levelName .debug) then some .debug
  else if eqIgnoreAsciiCase s (levelName .trace) then some .trace
  else none

/-- serde's `Deserialize` for `std::time::Duration`: a `secs` field fitting
`u64`, a `nanos` field fitting `u32`, then checked normalisation of an
overflowing nanosecond count. -/
def durationFromJson : Json → Option Duration
  | .obj kvs =>
    match lookupKey kvs secsKey, lookupKey kvs nanosKey with
    | some (.num s), some (.num n) =>
      if s < 2 ^ 64 ∧ n < 2 ^ 32 then
        if n < 1000000000 then some ⟨s, n⟩
        else if s + n / 1000000000 < 2 ^ 64 then
          some ⟨s + n / 1000000000, n % 1000000000⟩
        else none
      else none
    | _, _ => none
  | _ => none

/-- The derived `Deserialize` for `LogEntry` applied to a parsed JSON
value: all four fields must be present with well-typed values. -/
def jsonToLogEntry : Json → Option LogEntry
  | .obj kvs =>
    match lookupKey kvs offsetKey with
    | some oj =>
      match durationFromJson oj with
      | some off =>
        match lookupKey kvs levelKey with
        | some (.str ls) =>
          match levelFromName ls with
          | some lv =>
            match lookupKey kvs targetKey, lookupKey kvs bodyKey with
            | some (.str t), some (.str b) => some ⟨off, lv, t, b⟩
            | _, _ => none
          | none => none
        | _ => none
      | none => none
    | none => none
  | _ => none

/-- All characters are JSON whitespace (`serde_json` accepts and consumes
trailing whitespace after the top-level value). -/
def allWs : List Char → Bool
  | [] => true
  | c :: rest => isWsC c && allWs rest

/-- `serde_json::from_slice::<LogEntry>`: parse exactly one JSON value,
allow only trailing whitespace after it, then run the `LogEntry`
deserialization. The fuel `length + 6` always dominates the parser's
value-nesting depth. -/
def decodeLogEntryBytes (bytes : List Char) : Option LogEntry :=
  match parseValue (bytes.length + 6) bytes with
  | some (j, rest) => if allWs rest then jsonToLogEntry j else none
  | none => none

/-- The JSON value tree that `encodeLogEntry e` denotes (what the parser
reconstructs from the encoded bytes). -/
def entryJson (e : LogEntry) : Json :=
  .obj [(offsetKey, .obj [(secsKey, .num e.offset.secs), (nanosKey, .num e.offset.nanos)]),
        (levelKey, .str (levelName e.level)),
        (targetKey, .str e.target),
        (bodyKey, .str e.body)]

/-! ## The read path (`LogEntryIter`)

`LogEntryIter` holds a `BufReader` over the decompressing source plus a
scratch buffer; we model the not-yet-consumed decompressed characters.
`read_until` on an in-memory source cannot fail, so the `.ok()?` on it
never strikes in the model (gzip transport errors are outside the opaque
codec boundary the spec draws). -/

/-- Iterator that reads over the entries of a log file: the decompressed
characters not yet consumed. -/
structure LogEntryIter where
  remaining : List Char
deriving DecidableEq, Repr

/-- `BufRead::read_until(b'\n')`: the consumed chunk (terminator included
when found) and the rest of the source. At end of input the chunk is
whatever remained, without a terminator. -/
def readUntilNewline : List Char → List Char × List Char
  | [] => ([], [])
  | c :: rest =>
    if c = '\n' then ([c], rest)
    else
      let p := readUntilNewline rest
      (c :: p.1, p.2)

/-- One step of `Iterator::next` for `LogEntryIter`: clear the buffer, read
one line, end the sequence if the line lacks its terminator, else hand the
buffer to `serde_json::from_slice` and swallow any parse error via `.ok()`. -/
def LogEntryIter.next (it : LogEntryIter) : Option LogEntry × LogEntryIter :=
  let p := readUntilNewline it.remaining
  if p.1.getLast? ≠ some '\n' then (none, ⟨p.2⟩)
  else (decodeLogEntryBytes p.1, ⟨p.2⟩)

/-- Drain the iterator in the way a `for` loop or `collect()` does: keep
stepping until the first step that yields no record. The fuel only bounds
the loop; `n + 1` fuel collects any stream of at most `n` records. -/
def collectEntries : Nat → LogEntryIter → List LogEntry
  | 0, _ => []
  | fuel + 1, it =>
    match LogEntryIter.next it with
    | (some e, it') => e :: collectEntries fuel it'
    | (none, _) => []

/-- The stream content a sequence of entries is written as: each encoded
record followed by one line-terminator byte. -/
def encodeLines : List LogEntry → List Char
  | [] => []
  | e :: rest => encodeLogEntry e ++ '\n' :: encodeLines rest

/-! ## The write path (`Logger`, `init`)

The `Logger` owns `Mutex<GzEncoder<File>>`; we track the uncompressed
content written to it plus whether the mutex is poisoned. Time and IO are
external: `start.elapsed()` is an input of a `log` step, and the results
of the fallible `serde_json::to_writer`, `write_all` and `flush` calls are
inputs too. `unwrap` on a failed result is a panic, which poisons the held
mutex. -/

/-- What a call on the write path does: returns normally or panics
(`unwrap` on an `Err`). -/
inductive LogOutcome where
  | ok
  | panicked
deriving DecidableEq, Repr

/-- Logger that logs to a .jsonl.gz file (its mutable state). -/
structure Logger where
  /-- Uncompressed bytes handed to the compressing writer so far. -/
  dest : List Char
  /-- Whether the destination mutex is poisoned. -/
  poisoned : Bool
deriving DecidableEq, Repr

/-- Outcomes of the fallible IO steps inside one `log` call. -/
structure WriteEnv where
  /-- Whether `serde_json::to_writer` succeeds. -/
  serializeOk : Bool
  /-- Whether `write_all(&[b'\n'])` succeeds. -/
  writeOk : Bool
deriving DecidableEq, Repr

/-- A lazily rendered `fmt::Arguments`: the fragments whose concatenation
is the rendered message text. -/
structure FmtArguments where
  /-- Rendered text fragments, in order. -/
  pieces : List (List Char)
deriving DecidableEq, Repr

/-- The rendered text of a `fmt::Arguments` (its `Display` output). -/
def FmtArguments.render (a : FmtArguments) : List Char :=
  a.pieces.foldr (· ++ ·) []

/-- The `log::Record` view passed to `Logger::log`. -/
structure LogRecord where
  /-- Severity of the event. -/
  level : Level
  /-- Target of the event. -/
  target : List Char
  /-- Lazily rendered message. -/
  args : FmtArguments
deriving DecidableEq, Repr

/-- Internal type that serializes the same as `LogEntry` (`LogEntryArgs` in
`src/lib.rs`): the body is a lazily rendered `fmt::Arguments`. -/
structure LogEntryArgs where
  /-- Time offset of this entry. -/
  offset : Duration
  /-- Severity of this entry. -/
  level : Level
  /-- Target of this entry. -/
  target : List Char
  /-- Lazily rendered message body. -/
  body : FmtArguments
deriving DecidableEq, Repr

/-- The bytes `serde_json::to_writer` produces for a `LogEntryArgs`: serde
serializes `fmt::Arguments` through `collect_str`, i.e. as the JSON string
of its rendered text, and the other three fields exactly as `LogEntry`
does. -/
def encodeLogEntryArgs (a : LogEntryArgs) : List Char :=
  litOffset ++ natToDigits a.offset.secs ++
  litNanos ++ natToDigits a.offset.nanos ++
  litLevel ++ levelName a.level ++
  litTarget ++ escapeString a.target ++
  litBody ++ escapeString a.body.render ++
  litEnd

/-- `Logger::enabled`: `metadata.level() <= log::max_level()` in the log
crate's ordering (`Error = 1` most severe .. `Trace = 5` least). -/
def Logger.enabled (maxLevel : LevelFilter) (l : Level) : Bool :=
  l.toNat ≤ maxLevel.toNat

/-- `Logger::log`: severity gate, then under the lock (a poisoned lock is
skipped silently by `if let Ok`), serialize the `LogEntryArgs` and write
one line-terminator byte, each followed by `unwrap` — a failure of either
step panics and poisons the mutex. -/
def Logger.log (maxLevel : LevelFilter) (elapsed : Duration) (env : WriteEnv)
    (st : Logger) (record : LogRecord) : LogOutcome × Logger :=
  if Logger.enabled maxLevel record.level then
    let entry : LogEntryArgs := ⟨elapsed, record.level, record.target, record.args⟩
    if st.poisoned then (.ok, st)
    else if env.serializeOk then
      if env.writeOk then
        (.ok, ⟨st.dest ++ encodeLogEntryArgs entry ++ ['\n'], st.poisoned⟩)
      else (.panicked, ⟨st.dest ++ encodeLogEntryArgs entry, true⟩)
    else (.panicked, ⟨st.dest, true⟩)
  else (.ok, st)

/-- `Logger::flush`: under the lock (poisoned lock skipped silently), flush
the compressor with `unwrap` — a flush failure panics and poisons the
mutex. Flushing does not change the written content. -/
def Logger.flush (flushOk : Bool) (st : Logger) : LogOutcome × Logger :=
  if st.poisoned then (.ok, st)
  else if flushOk then (.ok, st)
  else (.panicked, ⟨st.dest, true⟩)

/-- Error type for `init`. -/
inductive InitError where
  | createFileError
  | setLoggerError
deriving DecidableEq, Repr

/-- Process-wide logging state: the `log` crate's installed-logger slot and
max-level cell, plus the filesystem effects (`filesCreated` records each
path passed to a successful `File::create`, i.e. created or truncated). -/
structure GlobalLogState where
  /-- The globally installed boxed logger, if any. -/
  logger : Option Logger
  /-- `log::max_level`. -/
  maxLevel : LevelFilter
  /-- Paths created/truncated by `File::create`, in order. -/
  filesCreated : List (List Char)
deriving DecidableEq, Repr

/-- `init`: `File::create(path)?` runs first (its failure is the
environment input `createOk`; success truncates/creates the file), then
`log::set_boxed_logger` either rejects (a logger is already installed) or
installs the fresh logger, and only then `log::set_max_level` runs. -/
def init (path : List Char) (level : LevelFilter) (createOk : Bool)
    (gs : GlobalLogState) : Except InitError Unit × GlobalLogState :=
  if createOk then
    let gs1 : GlobalLogState := { gs with filesCreated := gs.filesCreated ++ [path] }
    match gs1.logger with
    | some _ => (.error .setLoggerError, gs1)
    | none => (.ok (), { gs1 with logger := some ⟨[], false⟩, maxLevel := level })
  else (.error .createFileError, gs)

/-! ## Helper lemmas: characters and digits -/

theorem char_ne_of_toNat_ne {c d : Char} (h : c.toNat ≠ d.toNat) : c ≠ d :=
  fun hc => h (congrArg Char.toNat hc)

theorem isDigitC_toNat {c : Char} (h : isDigitC c = true) :
    48 ≤ c.toNat ∧ c.toNat ≤ 57 := by
  simpa [isDigitC] using h

theorem not_ws_of_digit {c : Char} (h : isDigitC c = true) : isWsC c = false := by
  obtain ⟨h1, h2⟩ := isDigitC_toNat h
  have hs : ¬c = ' ' := by rintro rfl; revert h1 h2; decide
  have ht : ¬c = '\t' := by rintro rfl; revert h1 h2; decide
  have hn : ¬c = '\n' := by rintro rfl; revert h1 h2; decide
  have hr : ¬c = '\r' := by rintro rfl; revert h1 h2; decide
  simp [isWsC, hs, ht, hn, hr]

theorem digit_ne_quote {c : Char} (h : isDigitC c = true) : c ≠ '"' := by
  obtain ⟨h1, h2⟩ := isDigitC_toNat h
  rintro rfl; revert h1 h2; decide

theorem digit_ne_lbrace {c : Char} (h : isDigitC c = true) : c ≠ '\x7b' := by
  obtain ⟨h1, h2⟩ := isDigitC_toNat h
  rintro rfl; revert h1 h2; decide

theorem digitChar_toNat : ∀ k, k < 10 → (digitChar k).toNat = 48 + k := by decide

theorem isDigitC_digitChar : ∀ k, k < 10 → isDigitC (digitChar k) = true := by decide

/-! ## Digit printing: recurrence and parse round trip -/

theorem natToDigitsAux_congr : ∀ f f' n, n < f → n < f' →
    natToDigitsAux f n = natToDigitsAux f' n := by
  intro f
  induction f with
  | zero => intro f' n hf; omega
  | succ f ih =>
    intro f' n hf hf'
    cases f' with
    | zero => omega
    | succ f' =>
      simp only [natToDigitsAux]
      by_cases h : n < 10
      · simp [h]
      · have hdiv : n / 10 < n := Nat.div_lt_self (by omega) (by omega)
        simp only [if_neg h]
        rw [ih f' (n / 10) (by omega) (by omega)]

theorem natToDigits_rec (n : Nat) : natToDigits n =
    if n < 10 then [digitChar n] else natToDigits (n / 10) ++ [digitChar (n % 10)] := by
  show natToDigitsAux (n + 1) n = _
  simp only [natToDigitsAux]
  by_cases h : n < 10
  · simp [h]
  · have hdiv : n / 10 < n := Nat.div_lt_self (by omega) (by omega)
    simp only [if_neg h]
    rw [natToDigitsAux_congr n (n / 10 + 1) (n / 10) (by omega) (by omega)]
    rfl

theorem natToDigits_ne_nil (n : Nat) : natToDigits n ≠ [] := by
  rw [natToDigits_rec]
  by_cases h : n < 10 <;> simp [h]

theorem natToDigits_digits (n : Nat) : ∀ c ∈ natToDigits n, isDigitC c = true := by
  induction n using Nat.strong_induction_on with
  | _ n ih =>
    rw [natToDigits_rec]
    by_cases h : n < 10
    · simp only [if_pos h, List.mem_singleton]
      rintro c rfl
      exact isDigitC_digitChar n h
    · have hdiv : n / 10 < n := Nat.div_lt_self (by omega) (by omega)
      simp only [if_neg h, List.mem_append, List.mem_singleton]
      rintro c (hc | rfl)
      · exact ih (n / 10) hdiv c hc
      · exact isDigitC_digitChar (n % 10) (Nat.mod_lt n (by omega))

theorem parseNatLoop_append_digits (ds : List Char) (acc : Nat) (rest : List Char)
    (h : ∀ c ∈ ds, isDigitC c = true) :
    parseNatLoop acc (ds ++ rest) =
      parseNatLoop (List.foldl (fun a c => a * 10 + (c.toNat - 48)) acc ds) rest := by
  induction ds generalizing acc with
  | nil => rfl
  | cons d ds ih =>
    have hd : isDigitC d = true := h d (by simp)
    simp only [List.cons_append, parseNatLoop, if_pos hd, List.foldl_cons]
    exact ih _ (fun c hc => h c (by simp [hc]))

theorem foldl_natToDigits (n : Nat) : ∀ acc,
    List.foldl (fun a c => a * 10 + (c.toNat - 48)) acc (natToDigits n) =
      acc * 10 ^ (natToDigits n).length + n := by
  induction n using Nat.strong_induction_on with
  | _ n ih =>
    intro acc
    rw [natToDigits_rec]
    by_cases h : n < 10
    · simp only [if_pos h, List.foldl_cons, List.foldl_nil, List.length_singleton]
      rw [digitChar_toNat n h]
      omega
    · have hdiv : n / 10 < n := Nat.div_lt_self (by omega) (by omega)
      simp only [if_neg h, List.foldl_append, List.foldl_cons, List.foldl_nil,
        List.length_append, List.length_singleton]
      rw [ih (n / 10) hdiv acc]
      rw [digitChar_toNat (n % 10) (Nat.mod_lt n (by omega))]
      have hpow : 10 ^ ((natToDigits (n / 10)).length + 1) =
          10 ^ (natToDigits (n / 10)).length * 10 := by
        rw [pow_succ]
      rw [hpow]
      have hmod : 10 * (n / 10) + n % 10 = n := Nat.div_add_mod n 10
      set P := 10 ^ (natToDigits (n / 10)).length with hP
      calc (acc * P + n / 10) * 10 + (48 + n % 10 - 48)
          = acc * (P * 10) + (10 * (n / 10) + n % 10) := by ring_nf; omega
        _ = acc * (P * 10) + n := by rw [hmod]

/-- The head of the remaining input is not a decimal digit (so a digit run
parse stops exactly there). -/
def noLeadingDigit : List Char → Bool
  | [] => true
  | c :: _ => !(isDigitC c)

theorem parseNatLoop_stop (acc : Nat) (rest : List Char) (h : noLeadingDigit rest = true) :
    parseNatLoop acc rest = (acc, rest) := by
  cases rest with
  | nil => rfl
  | cons c r =>
    have : isDigitC c = false := by simpa [noLeadingDigit] using h
    simp [parseNatLoop, this]

theorem parseNat_natToDigits (n : Nat) (rest : List Char) (h : noLeadingDigit rest = true) :
    parseNat (natToDigits n ++ rest) = some (n, rest) := by
  rcases hd : natToDigits n with _ | ⟨d, ds⟩
  · exact absurd hd (natToDigits_ne_nil n)
  · have hdig : ∀ c ∈ d :: ds, isDigitC c = true := by
      rw [← hd]; exact natToDigits_digits n
    have hd' : isDigitC d = true := hdig d (by simp)
    have key : parseNatLoop 0 ((d :: ds) ++ rest) = (n, rest) := by
      rw [parseNatLoop_append_digits _ _ _ hdig]
      rw [show List.foldl (fun a c => a * 10 + (c.toNat - 48)) 0 (d :: ds) = n by
        rw [← hd, foldl_natToDigits n 0]; omega]
      exact parseNatLoop_stop _ _ h
    simp only [List.cons_append, parseNatLoop, if_pos hd'] at key
    have key' : parseNatLoop (d.toNat - 48) (ds ++ rest) = (n, rest) := by
      simpa using key
    simp only [List.cons_append, parseNat, if_pos hd', key']

/-! ## String escaping: parse round trip -/

theorem hexVal_hexDigitChar : ∀ k, k < 16 → hexVal (hexDigitChar k) = some k := by decide

theorem psb_succ_backslash (f : Nat) (rest : List Char) :
    parseStringBody (f + 1) ('\\' :: rest) =
      match unescape rest with
      | some (ec, r2) => (parseStringBody f r2).map (fun p => (ec :: p.1, p.2))
      | none => none := rfl

theorem psb_succ_raw (f : Nat) (c : Char) (rest : List Char)
    (h1 : ¬c = '"') (h2 : ¬c = '\\') (h3 : ¬c.toNat < 0x20) :
    parseStringBody (f + 1) (c :: rest) =
      (parseStringBody f rest).map (fun p => (c :: p.1, p.2)) := by
  rw [parseStringBody]
  rw [if_neg h1, if_neg h2, if_neg h3]

theorem parseStringBody_escapeChar (f : Nat) (c : Char) (t : List Char) :
    parseStringBody (f + 1) (escapeChar c ++ t) =
      (parseStringBody f t).map (fun p => (c :: p.1, p.2)) := by
  by_cases h1 : c = '"'
  · subst h1; rfl
  by_cases h2 : c = '\\'
  · subst h2; rfl
  by_cases h3 : c = '\x08'
  · subst h3; rfl
  by_cases h4 : c = '\t'
  · subst h4; rfl
  by_cases h5 : c = '\n'
  · subst h5; rfl
  by_cases h6 : c = '\x0c'
  · subst h6; rfl
  by_cases h7 : c = '\r'
  · subst h7; rfl
  by_cases h8 : c.toNat < 0x20
  · have hdiv : c.toNat / 16 < 16 := by omega
    have hmod : c.toNat % 16 < 16 := by omega
    have hx : parseHex4 ('0' :: '0' :: hexDigitChar (c.toNat / 16) ::
        hexDigitChar (c.toNat % 16) :: t) = some (c.toNat, t) := by
      simp only [parseHex4, hex4, hexVal_hexDigitChar _ hdiv, hexVal_hexDigitChar _ hmod,
        show hexVal '0' = some 0 from rfl, Option.map_some]
      exact congrArg (fun n => (some (n, t) : Option (Nat × List Char)))
        (by omega : 0 * 4096 + 0 * 256 + c.toNat / 16 * 16 + c.toNat % 16 = c.toNat)
    rw [escapeChar, if_neg h1, if_neg h2, if_neg h3, if_neg h4, if_neg h5, if_neg h6,
      if_neg h7, if_pos h8]
    rw [show (['\\', 'u', '0', '0', hexDigitChar (c.toNat / 16),
        hexDigitChar (c.toNat % 16)] : List Char) ++ t
      = '\\' :: 'u' :: '0' :: '0' :: hexDigitChar (c.toNat / 16) ::
        hexDigitChar (c.toNat % 16) :: t from rfl]
    rw [psb_succ_backslash]
    rw [show unescape ('u' :: '0' :: '0' :: hexDigitChar (c.toNat / 16) ::
        hexDigitChar (c.toNat % 16) :: t)
      = unescapeU ('0' :: '0' :: hexDigitChar (c.toNat / 16) ::
        hexDigitChar (c.toNat % 16) :: t) from rfl]
    rw [unescapeU, hx]
    simp [Char.ofNat_toNat, show c.toNat < 55296 by omega]
  · rw [escapeChar, if_neg h1, if_neg h2]
    rw [if_neg (show ¬c = '\x08' from fun h => h8 (by subst h; decide)),
      if_neg (show ¬c = '\t' from fun h => h8 (by subst h; decide)),
      if_neg (show ¬c = '\n' from fun h => h8 (by subst h; decide)),
      if_neg (show ¬c = '\x0c' from fun h => h8 (by subst h; decide)),
      if_neg (show ¬c = '\r' from fun h => h8 (by subst h; decide)),
      if_neg h8]
    rw [show ([c] : List Char) ++ t = c :: t from rfl]
    exact psb_succ_raw f c t h1 h2 h8

theorem parseStringBody_escapeString (s : List Char) : ∀ (f : Nat) (t : List Char),
    parseStringBody (f + s.length + 1) (escapeString s ++ '"' :: t) = some (s, t) := by
  induction s with
  | nil =>
    intro f t
    simp [escapeString, parseStringBody]
  | cons c s ih =>
    intro f t
    have hlen : f + (c :: s).length + 1 = (f + s.length + 1) + 1 := by
      simp [List.length_cons]; omega
    rw [hlen, show escapeString (c :: s) = escapeChar c ++ escapeString s from rfl,
      List.append_assoc, parseStringBody_escapeChar, ih f t]
    rfl

theorem length_escapeString_ge (s : List Char) : s.length ≤ (escapeString s).length := by
  induction s with
  | nil => simp [escapeString]
  | cons c s ih =>
    have hc : 1 ≤ (escapeChar c).length := by
      unfold escapeChar
      repeat' split
      all_goals simp
    rw [show escapeString (c :: s) = escapeChar c ++ escapeString s from rfl]
    simp only [List.length_append, List.length_cons]
    omega

theorem parseStringBody_full (s t : List Char) :
    parseStringBody ((escapeString s ++ '"' :: t).length + 1) (escapeString s ++ '"' :: t) =
      some (s, t) := by
  have hge := length_escapeString_ge s
  obtain ⟨f, hf⟩ : ∃ f, (escapeString s ++ '"' :: t).length + 1 = f + s.length + 1 :=
    ⟨(escapeString s).length - s.length + 1 + t.length, by
      simp [List.length_append, List.length_cons]; omega⟩
  rw [hf]
  exact parseStringBody_escapeString s f t

/-! ## Parsing the encoded record -/

theorem skipWs_not_ws {c : Char} (h : isWsC c = false) (r : List Char) :
    skipWs (c :: r) = c :: r := by simp [skipWs, h]

theorem parseValue_cons (f : Nat) (c : Char) (rest : List Char) (h : isWsC c = false) :
    parseValue (f + 1) (c :: rest) =
      if c = '"' then
        (parseStringBody (rest.length + 1) rest).map (fun p => (Json.str p.1, p.2))
      else if c = '\x7b' then
        match skipWs rest with
        | [] => none
        | c2 :: r2 =>
          if c2 = '\x7d' then some (Json.obj [], r2)
          else (parseMembers f (c2 :: r2)).map (fun p => (Json.obj p.1, p.2))
      else if isDigitC c then
        (parseNat (c :: rest)).map (fun p => (Json.num p.1, p.2))
      else none := by
  rw [parseValue, skipWs_not_ws h]

theorem parseValue_num (f n : Nat) (t : List Char) (h : noLeadingDigit t = true) :
    parseValue (f + 1) (natToDigits n ++ t) = some (Json.num n, t) := by
  rcases hd : natToDigits n with _ | ⟨d, ds⟩
  · exact absurd hd (natToDigits_ne_nil n)
  · have hdig : ∀ c ∈ d :: ds, isDigitC c = true := by
      rw [← hd]; exact natToDigits_digits n
    have hd' : isDigitC d = true := hdig d (by simp)
    rw [List.cons_append, parseValue_cons f d (ds ++ t) (not_ws_of_digit hd')]
    rw [if_neg (digit_ne_quote hd'), if_neg (digit_ne_lbrace hd'), if_pos hd']
    rw [← List.cons_append, ← hd, parseNat_natToDigits n t h]
    rfl

theorem parseValue_str (f : Nat) (s t : List Char) :
    parseValue (f + 1) ('"' :: (escapeString s ++ '"' :: t)) = some (Json.str s, t) := by
  rw [parseValue_cons f '"' _ (by decide), if_pos rfl, parseStringBody_full]
  rfl

theorem parseKeyColon_str (key rest : List Char) :
    parseKeyColon ('"' :: (escapeString key ++ '"' :: ':' :: rest)) = some (key, rest) := by
  unfold parseKeyColon
  rw [skipWs_not_ws (by decide)]
  simp only [if_pos rfl, parseStringBody_full]
  rw [skipWs_not_ws (by decide)]
  simp

theorem parseMembers_step (f : Nat) (input key r2 : List Char) (v : Json) (r3 : List Char)
    (hkey : parseKeyColon input = some (key, r2))
    (hval : parseValue f r2 = some (v, r3)) :
    parseMembers (f + 1) input =
      match skipWs r3 with
      | [] => none
      | c3 :: r4 =>
        if c3 = ',' then (parseMembers f r4).map (fun p => ((key, v) :: p.1, p.2))
        else if c3 = '\x7d' then some ([(key, v)], r4)
        else none := by
  rw [parseMembers]
  simp only [hkey, hval]

theorem parseMembers_comma (f : Nat) (key V : List Char) (j : Json) (X : List Char)
    (ms : List (List Char × Json)) (t : List Char)
    (hv : parseValue (f + 1) V = some (j, ',' :: X))
    (hm : parseMembers (f + 1) X = some (ms, t)) :
    parseMembers (f + 2) ('"' :: (escapeString key ++ '"' :: ':' :: V)) =
      some ((key, j) :: ms, t) := by
  rw [parseMembers_step (f + 1) _ key V j (',' :: X) (parseKeyColon_str key V) hv]
  rw [skipWs_not_ws (by decide)]
  simp [hm]

theorem parseMembers_close (f : Nat) (key V : List Char) (j : Json) (t : List Char)
    (hv : parseValue (f + 1) V = some (j, '\x7d' :: t)) :
    parseMembers (f + 2) ('"' :: (escapeString key ++ '"' :: ':' :: V)) =
      some ([(key, j)], t) := by
  rw [parseMembers_step (f + 1) _ key V j ('\x7d' :: t) (parseKeyColon_str key V) hv]
  rw [skipWs_not_ws (by decide)]
  simp

theorem parseValue_obj_cons (f : Nat) (c2 : Char) (r2 : List Char)
    (hws : isWsC c2 = false) (hne : ¬c2 = '\x7d') :
    parseValue (f + 1) ('\x7b' :: c2 :: r2) =
      (parseMembers f (c2 :: r2)).map (fun p => (Json.obj p.1, p.2)) := by
  rw [parseValue_cons f '\x7b' (c2 :: r2) (by decide)]
  rw [if_neg (by decide : ¬('\x7b' = '"')), if_pos rfl]
  rw [skipWs_not_ws hws]
  simp only [if_neg hne]

theorem escapeString_levelName (l : Level) : escapeString (levelName l) = levelName l := by
  cases l <;> decide

theorem parseValue_encode (f : Nat) (e : LogEntry) (t : List Char) :
    parseValue (f + 6) (encodeLogEntry e ++ t) = some (entryJson e, t) := by
  obtain ⟨⟨secs, nanos⟩, lv, tg, bd⟩ := e
  have h1 : parseValue (f + 1) (natToDigits nanos ++ '\x7d' :: ',' :: ('"' :: (escapeString levelKey ++ '"' :: ':' :: ('"' :: (escapeString (levelName lv) ++ '"' :: ',' :: ('"' :: (escapeString targetKey ++ '"' :: ':' :: ('"' :: (escapeString tg ++ '"' :: ',' :: ('"' :: (escapeString bodyKey ++ '"' :: ':' :: ('"' :: (escapeString bd ++ '"' :: '\x7d' :: t))))))))))))) =
      some (Json.num nanos, '\x7d' :: ',' :: ('"' :: (escapeString levelKey ++ '"' :: ':' :: ('"' :: (escapeString (levelName lv) ++ '"' :: ',' :: ('"' :: (escapeString targetKey ++ '"' :: ':' :: ('"' :: (escapeString tg ++ '"' :: ',' :: ('"' :: (escapeString bodyKey ++ '"' :: ':' :: ('"' :: (escapeString bd ++ '"' :: '\x7d' :: t))))))))))))) :=
    parseValue_num f nanos _ rfl
  have h2 : parseMembers (f + 2) ('"' :: (escapeString nanosKey ++ '"' :: ':' :: (natToDigits nanos ++ '\x7d' :: ',' :: ('"' :: (escapeString levelKey ++ '"' :: ':' :: ('"' :: (escapeString (levelName lv) ++ '"' :: ',' :: ('"' :: (escapeString targetKey ++ '"' :: ':' :: ('"' :: (escapeString tg ++ '"' :: ',' :: ('"' :: (escapeString bodyKey ++ '"' :: ':' :: ('"' :: (escapeString bd ++ '"' :: '\x7d' :: t))))))))))))))) =
      some ([(nanosKey, Json.num nanos)], ',' :: ('"' :: (escapeString levelKey ++ '"' :: ':' :: ('"' :: (escapeString (levelName lv) ++ '"' :: ',' :: ('"' :: (escapeString targetKey ++ '"' :: ':' :: ('"' :: (escapeString tg ++ '"' :: ',' :: ('"' :: (escapeString bodyKey ++ '"' :: ':' :: ('"' :: (escapeString bd ++ '"' :: '\x7d' :: t))))))))))))) :=
    parseMembers_close f nanosKey _ _ _ h1
  have h3 : parseValue (f + 2) (natToDigits secs ++ ',' :: ('"' :: (escapeString nanosKey ++ '"' :: ':' :: (natToDigits nanos ++ '\x7d' :: ',' :: ('"' :: (escapeString levelKey ++ '"' :: ':' :: ('"' :: (escapeString (levelName lv) ++ '"' :: ',' :: ('"' :: (escapeString targetKey ++ '"' :: ':' :: ('"' :: (escapeString tg ++ '"' :: ',' :: ('"' :: (escapeString bodyKey ++ '"' :: ':' :: ('"' :: (escapeString bd ++ '"' :: '\x7d' :: t)))))))))))))))) =
      some (Json.num secs, ',' :: ('"' :: (escapeString nanosKey ++ '"' :: ':' :: (natToDigits nanos ++ '\x7d' :: ',' :: ('"' :: (escapeString levelKey ++ '"' :: ':' :: ('"' :: (escapeString (levelName lv) ++ '"' :: ',' :: ('"' :: (escapeString targetKey ++ '"' :: ':' :: ('"' :: (escapeString tg ++ '"' :: ',' :: ('"' :: (escapeString bodyKey ++ '"' :: ':' :: ('"' :: (escapeString bd ++ '"' :: '\x7d' :: t)))))))))))))))) :=
    parseValue_num (f + 1) secs _ rfl
  have h4 : parseMembers (f + 3) ('"' :: (escapeString secsKey ++ '"' :: ':' :: (natToDigits secs ++ ',' :: ('"' :: (escapeString nanosKey ++ '"' :: ':' :: (natToDigits nanos ++ '\x7d' :: ',' :: ('"' :: (escapeString levelKey ++ '"' :: ':' :: ('"' :: (escapeString (levelName lv) ++ '"' :: ',' :: ('"' :: (escapeString targetKey ++ '"' :: ':' :: ('"' :: (escapeString tg ++ '"' :: ',' :: ('"' :: (escapeString bodyKey ++ '"' :: ':' :: ('"' :: (escapeString bd ++ '"' :: '\x7d' :: t)))))))))))))))))) =
      some ([(secsKey, Json.num secs), (nanosKey, Json.num nanos)], ',' :: ('"' :: (escapeString levelKey ++ '"' :: ':' :: ('"' :: (escapeString (levelName lv) ++ '"' :: ',' :: ('"' :: (escapeString targetKey ++ '"' :: ':' :: ('"' :: (escapeString tg ++ '"' :: ',' :: ('"' :: (escapeString bodyKey ++ '"' :: ':' :: ('"' :: (escapeString bd ++ '"' :: '\x7d' :: t))))))))))))) :=
    parseMembers_comma (f + 1) secsKey _ _ _ _ _ h3 h2
  have h5 : parseValue (f + 4) ('\x7b' :: ('"' :: (escapeString secsKey ++ '"' :: ':' :: (natToDigits secs ++ ',' :: ('"' :: (escapeString nanosKey ++ '"' :: ':' :: (natToDigits nanos ++ '\x7d' :: ',' :: ('"' :: (escapeString levelKey ++ '"' :: ':' :: ('"' :: (escapeString (levelName lv) ++ '"' :: ',' :: ('"' :: (escapeString targetKey ++ '"' :: ':' :: ('"' :: (escapeString tg ++ '"' :: ',' :: ('"' :: (escapeString bodyKey ++ '"' :: ':' :: ('"' :: (escapeString bd ++ '"' :: '\x7d' :: t))))))))))))))))))) =
      some (Json.obj [(secsKey, Json.num secs), (nanosKey, Json.num nanos)], ',' :: ('"' :: (escapeString levelKey ++ '"' :: ':' :: ('"' :: (escapeString (levelName lv) ++ '"' :: ',' :: ('"' :: (escapeString targetKey ++ '"' :: ':' :: ('"' :: (escapeString tg ++ '"' :: ',' :: ('"' :: (escapeString bodyKey ++ '"' :: ':' :: ('"' :: (escapeString bd ++ '"' :: '\x7d' :: t))))))))))))) := by
    rw [parseValue_obj_cons (f + 3) '"' _ (by decide) (by decide), h4]
    rfl
  have h8 : parseValue (f + 1) ('"' :: (escapeString bd ++ '"' :: '\x7d' :: t)) =
      some (Json.str bd, '\x7d' :: t) :=
    parseValue_str f bd _
  have h9 : parseMembers (f + 2) ('"' :: (escapeString bodyKey ++ '"' :: ':' :: ('"' :: (escapeString bd ++ '"' :: '\x7d' :: t)))) =
      some ([(bodyKey, Json.str bd)], t) :=
    parseMembers_close f bodyKey _ _ _ h8
  have h7 : parseValue (f + 2) ('"' :: (escapeString tg ++ '"' :: ',' :: ('"' :: (escapeString bodyKey ++ '"' :: ':' :: ('"' :: (escapeString bd ++ '"' :: '\x7d' :: t)))))) =
      some (Json.str tg, ',' :: ('"' :: (escapeString bodyKey ++ '"' :: ':' :: ('"' :: (escapeString bd ++ '"' :: '\x7d' :: t))))) :=
    parseValue_str (f + 1) tg _
  have h10 : parseMembers (f + 3) ('"' :: (escapeString targetKey ++ '"' :: ':' :: ('"' :: (escapeString tg ++ '"' :: ',' :: ('"' :: (escapeString bodyKey ++ '"' :: ':' :: ('"' :: (escapeString bd ++ '"' :: '\x7d' :: t)))))))) =
      some ([(targetKey, Json.str tg), (bodyKey, Json.str bd)], t) :=
    parseMembers_comma (f + 1) targetKey _ _ _ _ _ h7 h9
  have h6 : parseValue (f + 3) ('"' :: (escapeString (levelName lv) ++ '"' :: ',' :: ('"' :: (escapeString targetKey ++ '"' :: ':' :: ('"' :: (escapeString tg ++ '"' :: ',' :: ('"' :: (escapeString bodyKey ++ '"' :: ':' :: ('"' :: (escapeString bd ++ '"' :: '\x7d' :: t)))))))))) =
      some (Json.str (levelName lv), ',' :: ('"' :: (escapeString targetKey ++ '"' :: ':' :: ('"' :: (escapeString tg ++ '"' :: ',' :: ('"' :: (escapeString bodyKey ++ '"' :: ':' :: ('"' :: (escapeString bd ++ '"' :: '\x7d' :: t))))))))) :=
    parseValue_str (f + 2) (levelName lv) _
  have h11 : parseMembers (f + 4) ('"' :: (escapeString levelKey ++ '"' :: ':' :: ('"' :: (escapeString (levelName lv) ++ '"' :: ',' :: ('"' :: (escapeString targetKey ++ '"' :: ':' :: ('"' :: (escapeString tg ++ '"' :: ',' :: ('"' :: (escapeString bodyKey ++ '"' :: ':' :: ('"' :: (escapeString bd ++ '"' :: '\x7d' :: t)))))))))))) =
      some ([(levelKey, Json.str (levelName lv)), (targetKey, Json.str tg),
        (bodyKey, Json.str bd)], t) :=
    parseMembers_comma (f + 2) levelKey _ _ _ _ _ h6 h10
  have h12 : parseMembers (f + 5) ('"' :: (escapeString offsetKey ++ '"' :: ':' :: ('\x7b' :: ('"' :: (escapeString secsKey ++ '"' :: ':' :: (natToDigits secs ++ ',' :: ('"' :: (escapeString nanosKey ++ '"' :: ':' :: (natToDigits nanos ++ '\x7d' :: ',' :: ('"' :: (escapeString levelKey ++ '"' :: ':' :: ('"' :: (escapeString (levelName lv) ++ '"' :: ',' :: ('"' :: (escapeString targetKey ++ '"' :: ':' :: ('"' :: (escapeString tg ++ '"' :: ',' :: ('"' :: (escapeString bodyKey ++ '"' :: ':' :: ('"' :: (escapeString bd ++ '"' :: '\x7d' :: t))))))))))))))))))))) =
      some ([(offsetKey, Json.obj [(secsKey, Json.num secs), (nanosKey, Json.num nanos)]), (levelKey, Json.str (levelName lv)),
        (targetKey, Json.str tg), (bodyKey, Json.str bd)], t) :=
    parseMembers_comma (f + 3) offsetKey _ _ _ _ _ h5 h11
  have hshape : encodeLogEntry ⟨⟨secs, nanos⟩, lv, tg, bd⟩ ++ t =
      '\x7b' :: ('"' :: (escapeString offsetKey ++ '"' :: ':' :: ('\x7b' :: ('"' :: (escapeString secsKey ++ '"' :: ':' :: (natToDigits secs ++ ',' :: ('"' :: (escapeString nanosKey ++ '"' :: ':' :: (natToDigits nanos ++ '\x7d' :: ',' :: ('"' :: (escapeString levelKey ++ '"' :: ':' :: ('"' :: (escapeString (levelName lv) ++ '"' :: ',' :: ('"' :: (escapeString targetKey ++ '"' :: ':' :: ('"' :: (escapeString tg ++ '"' :: ',' :: ('"' :: (escapeString bodyKey ++ '"' :: ':' :: ('"' :: (escapeString bd ++ '"' :: '\x7d' :: t))))))))))))))))))))) := by
    rw [escapeString_levelName lv]
    rw [encodeLogEntry]
    simp only [show escapeString offsetKey = offsetKey from rfl,
      show escapeString secsKey = secsKey from rfl,
      show escapeString nanosKey = nanosKey from rfl,
      show escapeString levelKey = levelKey from rfl,
      show escapeString targetKey = targetKey from rfl,
      show escapeString bodyKey = bodyKey from rfl,
      litOffset, litNanos, litLevel, litTarget, litBody, litEnd,
      offsetKey, secsKey, nanosKey, levelKey, targetKey, bodyKey,
      List.cons_append, List.nil_append, List.append_assoc]
    simp only [show (escapeString ['o','f','f','s','e','t'] : List Char)
        = ['o','f','f','s','e','t'] from rfl,
      show (escapeString ['s','e','c','s'] : List Char) = ['s','e','c','s'] from rfl,
      show (escapeString ['n','a','n','o','s'] : List Char) = ['n','a','n','o','s'] from rfl,
      show (escapeString ['l','e','v','e','l'] : List Char) = ['l','e','v','e','l'] from rfl,
      show (escapeString ['t','a','r','g','e','t'] : List Char) = ['t','a','r','g','e','t'] from rfl,
      show (escapeString ['b','o','d','y'] : List Char) = ['b','o','d','y'] from rfl,
      List.cons_append, List.nil_append]
  rw [hshape, parseValue_obj_cons (f + 5) '"' _ (by decide) (by decide), h12]
  rfl

/-! ## Decoding the parsed record -/

theorem levelFromName_levelName (l : Level) : levelFromName (levelName l) = some l := by
  cases l <;> decide

theorem jsonToLogEntry_entryJson (e : LogEntry) (h : ValidEntry e) :
    jsonToLogEntry (entryJson e) = some e := by
  obtain ⟨⟨secs, nanos⟩, lv, tg, bd⟩ := e
  obtain ⟨hs, hn⟩ := h
  dsimp only at hs hn
  have hdur : durationFromJson (Json.obj [(secsKey, Json.num secs),
      (nanosKey, Json.num nanos)]) = some ⟨secs, nanos⟩ := by
    show (if secs < 2 ^ 64 ∧ nanos < 2 ^ 32 then
        if nanos < 1000000000 then some (Duration.mk secs nanos)
        else if secs + nanos / 1000000000 < 2 ^ 64 then
          some (Duration.mk (secs + nanos / 1000000000) (nanos % 1000000000))
        else none
      else none) = some (Duration.mk secs nanos)
    rw [if_pos ⟨hs, by omega⟩, if_pos hn]
  simp [jsonToLogEntry, entryJson, lookupKey, hdur, levelFromName_levelName,
    show ¬(offsetKey = levelKey) by decide, show ¬(offsetKey = targetKey) by decide,
    show ¬(offsetKey = bodyKey) by decide, show ¬(levelKey = targetKey) by decide,
    show ¬(levelKey = bodyKey) by decide, show ¬(targetKey = bodyKey) by decide,
    show ¬(secsKey = nanosKey) by decide]

theorem decode_encode_ws (e : LogEntry) (h : ValidEntry e) (ws : List Char)
    (hws : allWs ws = true) :
    decodeLogEntryBytes (encodeLogEntry e ++ ws) = some e := by
  unfold decodeLogEntryBytes
  rw [parseValue_encode]
  simp [hws, jsonToLogEntry_entryJson e h]

theorem decode_encode (e : LogEntry) (h : ValidEntry e) :
    decodeLogEntryBytes (encodeLogEntry e) = some e := by
  have := decode_encode_ws e h [] rfl
  rwa [List.append_nil] at this

/-! ## The encoding contains no control characters -/

theorem hexDigitChar_ge (k : Nat) : 0x20 ≤ (hexDigitChar k).toNat := by
  unfold hexDigitChar
  split <;> decide

theorem escapeChar_no_control (c : Char) (d : Char) (hd : d ∈ escapeChar c) :
    0x20 ≤ d.toNat := by
  unfold escapeChar at hd
  by_cases h1 : c = '"'
  · rw [if_pos h1] at hd
    simp only [List.mem_cons, List.not_mem_nil, or_false] at hd
    rcases hd with rfl | rfl <;> decide
  rw [if_neg h1] at hd
  by_cases h2 : c = '\\'
  · rw [if_pos h2] at hd
    simp only [List.mem_cons, List.not_mem_nil, or_false] at hd
    rcases hd with rfl | rfl <;> decide
  rw [if_neg h2] at hd
  by_cases h3 : c = '\x08'
  · rw [if_pos h3] at hd
    simp only [List.mem_cons, List.not_mem_nil, or_false] at hd
    rcases hd with rfl | rfl <;> decide
  rw [if_neg h3] at hd
  by_cases h4 : c = '\t'
  · rw [if_pos h4] at hd
    simp only [List.mem_cons, List.not_mem_nil, or_false] at hd
    rcases hd with rfl | rfl <;> decide
  rw [if_neg h4] at hd
  by_cases h5 : c = '\n'
  · rw [if_pos h5] at hd
    simp only [List.mem_cons, List.not_mem_nil, or_false] at hd
    rcases hd with rfl | rfl <;> decide
  rw [if_neg h5] at hd
  by_cases h6 : c = '\x0c'
  · rw [if_pos h6] at hd
    simp only [List.mem_cons, List.not_mem_nil, or_false] at hd
    rcases hd with rfl | rfl <;> decide
  rw [if_neg h6] at hd
  by_cases h7 : c = '\r'
  · rw [if_pos h7] at hd
    simp only [List.mem_cons, List.not_mem_nil, or_false] at hd
    rcases hd with rfl | rfl <;> decide
  rw [if_neg h7] at hd
  by_cases h8 : c.toNat < 0x20
  · rw [if_pos h8] at hd
    simp only [List.mem_cons, List.not_mem_nil, or_false] at hd
    rcases hd with rfl | rfl | rfl | rfl | rfl | rfl
    · decide
    · decide
    · decide
    · decide
    · exact hexDigitChar_ge _
    · exact hexDigitChar_ge _
  · rw [if_neg h8] at hd
    simp only [List.mem_singleton] at hd
    subst hd
    omega

theorem escapeString_no_control (s : List Char) (d : Char) (hd : d ∈ escapeString s) :
    0x20 ≤ d.toNat := by
  induction s with
  | nil => simp [escapeString] at hd
  | cons c s ih =>
    rw [show escapeString (c :: s) = escapeChar c ++ escapeString s from rfl] at hd
    rcases List.mem_append.mp hd with h | h
    · exact escapeChar_no_control c d h
    · exact ih h

theorem natToDigits_no_control (n : Nat) (d : Char) (hd : d ∈ natToDigits n) :
    0x20 ≤ d.toNat := by
  have := isDigitC_toNat (natToDigits_digits n d hd)
  omega

theorem levelName_no_control (l : Level) (d : Char) (hd : d ∈ levelName l) :
    0x20 ≤ d.toNat := by
  cases l <;> revert hd <;> revert d <;> decide

theorem encode_no_control (e : LogEntry) (c : Char) (hc : c ∈ encodeLogEntry e) :
    0x20 ≤ c.toNat := by
  unfold encodeLogEntry at hc
  simp only [List.mem_append] at hc
  rcases hc with ((((((((((hc | hc) | hc) | hc) | hc) | hc) | hc) | hc) | hc) | hc) | hc)
  · revert hc; revert c; decide
  · exact natToDigits_no_control _ c hc
  · revert hc; revert c; decide
  · exact natToDigits_no_control _ c hc
  · revert hc; revert c; decide
  · exact levelName_no_control _ c hc
  · revert hc; revert c; decide
  · exact escapeString_no_control _ c hc
  · revert hc; revert c; decide
  · exact escapeString_no_control _ c hc
  · revert hc; revert c; decide

theorem encode_no_newline (e : LogEntry) : '\n' ∉ encodeLogEntry e := fun h =>
  absurd (encode_no_control e _ h) (by decide)

/-! ## Reader lemmas -/

theorem readUntilNewline_no_nl (t : List Char) (h : '\n' ∉ t) :
    readUntilNewline t = (t, []) := by
  induction t with
  | nil => rfl
  | cons c r ih =>
    have hc : ¬c = '\n' := fun hh => h (by simp [hh])
    have hr : '\n' ∉ r := fun hh => h (List.mem_cons_of_mem _ hh)
    simp [readUntilNewline, hc, ih hr]

theorem readUntilNewline_line (xs rest : List Char) (h : '\n' ∉ xs) :
    readUntilNewline (xs ++ '\n' :: rest) = (xs ++ ['\n'], rest) := by
  induction xs with
  | nil => simp [readUntilNewline]
  | cons c r ih =>
    have hc : ¬c = '\n' := fun hh => h (by simp [hh])
    have hr : '\n' ∉ r := fun hh => h (List.mem_cons_of_mem _ hh)
    simp [readUntilNewline, hc, ih hr]

theorem next_line (e : LogEntry) (he : ValidEntry e) (rest : List Char) :
    LogEntryIter.next ⟨encodeLogEntry e ++ '\n' :: rest⟩ = (some e, ⟨rest⟩) := by
  unfold LogEntryIter.next
  rw [show (LogEntryIter.mk (encodeLogEntry e ++ '\n' :: rest)).remaining
    = encodeLogEntry e ++ '\n' :: rest from rfl]
  rw [readUntilNewline_line _ _ (encode_no_newline e)]
  dsimp only
  rw [List.getLast?_concat]
  simp [decode_encode_ws e he ['\n'] rfl]

theorem next_truncated (t : List Char) (h : '\n' ∉ t) :
    LogEntryIter.next ⟨t⟩ = (none, ⟨[]⟩) := by
  unfold LogEntryIter.next
  rw [show (LogEntryIter.mk t).remaining = t from rfl]
  rw [readUntilNewline_no_nl t h]
  have hne : t.getLast? ≠ some '\n' := fun hh => h (List.mem_of_getLast?_eq_some hh)
  simp [hne]

theorem collect_encodeLines (rs : List LogEntry) (t : List Char)
    (hval : ∀ e ∈ rs, ValidEntry e) (ht : '\n' ∉ t) :
    collectEntries (rs.length + 1) ⟨encodeLines rs ++ t⟩ = rs := by
  induction rs with
  | nil =>
    show collectEntries 1 ⟨encodeLines [] ++ t⟩ = []
    rw [show encodeLines [] = [] from rfl, List.nil_append]
    simp [collectEntries, next_truncated t ht]
  | cons e rs ih =>
    have he : ValidEntry e := hval e (by simp)
    have hshape : encodeLines (e :: rs) ++ t =
        encodeLogEntry e ++ '\n' :: (encodeLines rs ++ t) := by
      rw [show encodeLines (e :: rs) = encodeLogEntry e ++ '\n' :: encodeLines rs from rfl]
      simp [List.append_assoc]
    rw [show (e :: rs).length + 1 = (rs.length + 1) + 1 from by simp]
    rw [hshape]
    rw [collectEntries]
    rw [next_line e he]
    dsimp only
    rw [ih (fun x hx => hval x (by simp [hx]))]

/-! ## Write-path lemmas -/

theorem encodeLogEntryArgs_eq (a : LogEntryArgs) :
    encodeLogEntryArgs a = encodeLogEntry ⟨a.offset, a.level, a.target, a.body.render⟩ := rfl

theorem log_enabled_ok (maxLevel : LevelFilter) (elapsed : Duration) (st : Logger)
    (record : LogRecord) (hp : st.poisoned = false)
    (hen : Logger.enabled maxLevel record.level = true) :
    Logger.log maxLevel elapsed ⟨true, true⟩ st record =
      (.ok, ⟨st.dest ++ encodeLogEntryArgs ⟨elapsed, record.level, record.target, record.args⟩
        ++ ['\n'], st.poisoned⟩) := by
  unfold Logger.log
  rw [if_pos hen, hp]
  simp

theorem log_disabled (maxLevel : LevelFilter) (elapsed : Duration) (env : WriteEnv)
    (st : Logger) (record : LogRecord)
    (hen : Logger.enabled maxLevel record.level = false) :
    Logger.log maxLevel elapsed env st record = (.ok, st) := by
  unfold Logger.log
  rw [hen]
  simp

theorem log_poisoned (maxLevel : LevelFilter) (elapsed : Duration) (env : WriteEnv)
    (st : Logger) (record : LogRecord) (hp : st.poisoned = true) :
    Logger.log maxLevel elapsed env st record = (.ok, st) := by
  unfold Logger.log
  rw [hp]
  split <;> simp

theorem log_panics_iff (maxLevel : LevelFilter) (elapsed : Duration) (env : WriteEnv)
    (st : Logger) (record : LogRecord) :
    (Logger.log maxLevel elapsed env st record).1 = .panicked ↔
      Logger.enabled maxLevel record.level = true ∧ st.poisoned = false ∧
        (env.serializeOk = false ∨ env.writeOk = false) := by
  unfold Logger.log
  rcases st with ⟨dest, poisoned⟩
  rcases env with ⟨so, wo⟩
  cases hen : Logger.enabled maxLevel record.level <;>
    cases poisoned <;> cases so <;> cases wo <;> simp

theorem flush_panics_iff (flushOk : Bool) (st : Logger) :
    (Logger.flush flushOk st).1 = .panicked ↔
      st.poisoned = false ∧ flushOk = false := by
  unfold Logger.flush
  rcases st with ⟨dest, poisoned⟩
  cases poisoned <;> cases flushOk <;> simp

theorem flush_poisoned (flushOk : Bool) (st : Logger) (hp : st.poisoned = true) :
    Logger.flush flushOk st = (.ok, st) := by
  unfold Logger.flush
  rw [hp]
  simp

/-! ## Claim theorems -/

/-- C1: for every valid Record (any representable offset duration, any of
the five severities, any target string, any body string including newlines
and control characters), decoding the bytes produced by encoding that
Record yields a Record equal to the original in all four fields. -/
theorem C1_round_trip (e : LogEntry) (h : ValidEntry e) :
    decodeLogEntryBytes (encodeLogEntry e) = some e :=
  decode_encode e h

/-- C1 witness: the round trip at a concrete record whose body contains a
newline, a tab and a raw control character. -/
theorem C1_round_trip_witness :
    ValidEntry ⟨⟨120, 123456789⟩, .error, " my target ".toList,
      "line1\nline2\x01\ttab".toList⟩ ∧
    decodeLogEntryBytes (encodeLogEntry ⟨⟨120, 123456789⟩, .error, " my target ".toList,
      "line1\nline2\x01\ttab".toList⟩) =
      some ⟨⟨120, 123456789⟩, .error, " my target ".toList, "line1\nline2\x01\ttab".toList⟩ :=
  ⟨by decide, C1_round_trip _ (by decide)⟩

/-- C2 counterexample: with an enabled event, a healthy lock and a failing
serialize step, `Logger::log` panics (the `unwrap` propagates the failure
to the caller), so a write-path failure is not swallowed — refuting the
claim that emit never aborts or propagates an error. -/
theorem C2_counterexample :
    (Logger.log .trace ⟨0, 0⟩ ⟨false, true⟩ ⟨[], false⟩
      ⟨.info, "app".toList, ⟨["msg".toList]⟩⟩).1 = LogOutcome.panicked := by
  decide

/-- C2 amended: inside `emit`/`flush` only a failure to acquire the lock
(a poisoned mutex) is swallowed — the record is silently dropped and the
caller sees a normal return; a failure of the serialize, write or flush
step itself is not swallowed: `log` panics exactly when the event is
enabled, the lock is healthy and serialize or write fails, and `flush`
panics exactly when the lock is healthy and the flush fails. -/
theorem C2_write_errors (maxLevel : LevelFilter) (elapsed : Duration) (env : WriteEnv)
    (st : Logger) (record : LogRecord) (flushOk : Bool) :
    (st.poisoned = true →
      Logger.log maxLevel elapsed env st record = (.ok, st) ∧
      Logger.flush flushOk st = (.ok, st)) ∧
    ((Logger.log maxLevel elapsed env st record).1 = .panicked ↔
      Logger.enabled maxLevel record.level = true ∧ st.poisoned = false ∧
        (env.serializeOk = false ∨ env.writeOk = false)) ∧
    ((Logger.flush flushOk st).1 = .panicked ↔
      st.poisoned = false ∧ flushOk = false) :=
  ⟨fun hp => ⟨log_poisoned maxLevel elapsed env st record hp, flush_poisoned flushOk st hp⟩,
   log_panics_iff maxLevel elapsed env st record,
   flush_panics_iff flushOk st⟩

/-- C3: for a decompressed stream made of newline-terminated encodings of
valid Records followed by a truncated trailing line (no terminating
newline), iterating yields exactly the Records of the complete lines in
order and then ends; no error is surfaced (the model's step has no error
channel) and no record is produced from the truncated tail. -/
theorem C3_truncation_tolerance (rs : List LogEntry) (t : List Char)
    (hval : ∀ e ∈ rs, ValidEntry e) (ht : '\n' ∉ t) :
    collectEntries (rs.length + 1) ⟨encodeLines rs ++ t⟩ = rs :=
  collect_encodeLines rs t hval ht

/-- C3 witness: one complete line followed by a truncated partial record
decodes to exactly the one complete Record. -/
theorem C3_witness :
    (∀ e ∈ [(⟨⟨12, 5000⟩, .warn, "app".toList, "hello".toList⟩ : LogEntry)], ValidEntry e) ∧
    '\n' ∉ "\x7b\"offse".toList ∧
    collectEntries ([(⟨⟨12, 5000⟩, .warn, "app".toList, "hello".toList⟩ : LogEntry)].length + 1)
      ⟨encodeLines [⟨⟨12, 5000⟩, .warn, "app".toList, "hello".toList⟩] ++ "\x7b\"offse".toList⟩ =
      [⟨⟨12, 5000⟩, .warn, "app".toList, "hello".toList⟩] :=
  ⟨by decide, by decide, C3_truncation_tolerance _ _ (by decide) (by decide)⟩

/-- C4 counterexample: a malformed line followed by a well-formed line —
the step on the malformed line yields no record, yet the very next step
yields a record again, so the sequence is not permanently exhausted after
a parse failure, refuting the claim for that cause. -/
theorem C4_counterexample :
    (LogEntryIter.next ⟨"x\n".toList ++ encodeLogEntry ⟨⟨0, 0⟩, .info, [], []⟩ ++ ['\n']⟩).1
        = none ∧
    (LogEntryIter.next
        (LogEntryIter.next
          ⟨"x\n".toList ++ encodeLogEntry ⟨⟨0, 0⟩, .info, [], []⟩ ++ ['\n']⟩).2).1
        = some ⟨⟨0, 0⟩, .info, [], []⟩ := by
  decide

/-- C4 amended: when a step signals end-of-sequence because the source is
exhausted or the remaining input holds no line terminator (truncation),
the cursor is left empty and every subsequent step returns no record — the
exhaustion is permanent for those causes. After a parse failure on a
complete line, however, the cursor has advanced past the failed line and a
subsequent step may yield a record from a later line (consumers driven by
the iterator protocol still stop at the first `none`). -/
theorem C4_exhaustion_permanence (it : LogEntryIter) (h : '\n' ∉ it.remaining) :
    LogEntryIter.next it = (none, ⟨[]⟩) ∧
    LogEntryIter.next ⟨[]⟩ = (none, ⟨[]⟩) := by
  constructor
  · rcases it with ⟨r⟩
    exact next_truncated r h
  · rfl

/-- C4 witness: permanence at a concrete truncated stream. -/
theorem C4_witness :
    '\n' ∉ "abc".toList ∧
    (LogEntryIter.next ⟨"abc".toList⟩ = (none, ⟨[]⟩) ∧
     LogEntryIter.next ⟨[]⟩ = (none, ⟨[]⟩)) :=
  ⟨by decide, C4_exhaustion_permanence ⟨"abc".toList⟩ (by decide)⟩

/-- C5: `log` writes a record to the destination if and only if the
event's severity passes the configured threshold — an accepted event
appends exactly its encoding plus one line terminator, a rejected event
returns with no side effect; in particular, with threshold `Info`, a
Debug-level event is dropped with no side effect, an Info-level event is
written, and reading the destination back yields only the Info record. -/
theorem C5_threshold_gating :
    (∀ (maxLevel : LevelFilter) (elapsed : Duration) (st : Logger) (record : LogRecord),
      st.poisoned = false →
      (Logger.enabled maxLevel record.level = true →
        Logger.log maxLevel elapsed ⟨true, true⟩ st record =
          (.ok, ⟨st.dest ++
            encodeLogEntryArgs ⟨elapsed, record.level, record.target, record.args⟩
            ++ ['\n'], false⟩)) ∧
      (Logger.enabled maxLevel record.level = false →
        Logger.log maxLevel elapsed ⟨true, true⟩ st record = (.ok, st))) ∧
    (∀ (elapsed1 elapsed2 : Duration) (tgD tgI : List Char) (aD aI : FmtArguments),
      ValidDuration elapsed2 →
      collectEntries 2 ⟨((Logger.log .info elapsed2 ⟨true, true⟩
          ((Logger.log .info elapsed1 ⟨true, true⟩ ⟨[], false⟩ ⟨.debug, tgD, aD⟩).2)
          ⟨.info, tgI, aI⟩).2).dest⟩ =
        [⟨elapsed2, .info, tgI, aI.render⟩]) := by
  constructor
  · intro maxLevel elapsed st record hp
    constructor
    · intro hen
      rw [log_enabled_ok maxLevel elapsed st record hp hen, hp]
    · intro hen
      exact log_disabled maxLevel elapsed ⟨true, true⟩ st record hen
  · intro elapsed1 elapsed2 tgD tgI aD aI hval
    rw [log_disabled .info elapsed1 ⟨true, true⟩ ⟨[], false⟩ ⟨.debug, tgD, aD⟩ rfl]
    rw [log_enabled_ok .info elapsed2 ⟨[], false⟩ ⟨.info, tgI, aI⟩ rfl rfl]
    dsimp only
    rw [encodeLogEntryArgs_eq, List.nil_append]
    have hcol := collect_encodeLines [⟨elapsed2, .info, tgI, aI.render⟩] []
      (by intro x hx; simp at hx; subst hx; exact hval) (by simp)
    simpa [encodeLines] using hcol

/-- C5 witness: the Debug-then-Info scenario at concrete inputs reads back
exactly the Info record. -/
theorem C5_witness :
    ValidDuration ⟨3, 7⟩ ∧
    collectEntries 2 ⟨((Logger.log .info ⟨3, 7⟩ ⟨true, true⟩
        ((Logger.log .info ⟨1, 0⟩ ⟨true, true⟩ ⟨[], false⟩
          ⟨.debug, "dbg".toList, ⟨["dropped".toList]⟩⟩).2)
        ⟨.info, "app".toList, ⟨["kept".toList]⟩⟩).2).dest⟩ =
      [⟨⟨3, 7⟩, .info, "app".toList, FmtArguments.render ⟨["kept".toList]⟩⟩] :=
  ⟨by decide, C5_threshold_gating.2 ⟨1, 0⟩ ⟨3, 7⟩ "dbg".toList "app".toList
    ⟨["dropped".toList]⟩ ⟨["kept".toList]⟩ (by decide)⟩

/-- C6: once a global logger is installed, every further `init` call fails
— with the installation error whenever file creation succeeded — and the
previously installed sink stays installed (and the max-level cell keeps
its old value, since `set_max_level` is only reached on success). -/
theorem C6_reinit_fails (path : List Char) (level : LevelFilter) (createOk : Bool)
    (gs : GlobalLogState) (L : Logger) (h : gs.logger = some L) :
    (∃ err, (init path level createOk gs).1 = .error err) ∧
    (init path level createOk gs).2.logger = some L ∧
    (init path level createOk gs).2.maxLevel = gs.maxLevel ∧
    (createOk = true → (init path level createOk gs).1 = .error .setLoggerError) := by
  unfold init
  cases createOk <;> simp [h]

/-- C6 witness: a second initialization attempt at concrete state fails
with the installation error and leaves the first sink installed. -/
theorem C6_witness :
    (⟨some ⟨[], false⟩, .info, [['a']]⟩ : GlobalLogState).logger = some ⟨[], false⟩ ∧
    ((∃ err, (init ['p'] .debug true ⟨some ⟨[], false⟩, .info, [['a']]⟩).1 = .error err) ∧
     (init ['p'] .debug true ⟨some ⟨[], false⟩, .info, [['a']]⟩).2.logger = some ⟨[], false⟩ ∧
     (init ['p'] .debug true ⟨some ⟨[], false⟩, .info, [['a']]⟩).2.maxLevel =
       (⟨some ⟨[], false⟩, .info, [['a']]⟩ : GlobalLogState).maxLevel ∧
     (true = true → (init ['p'] .debug true ⟨some ⟨[], false⟩, .info, [['a']]⟩).1 =
       .error .setLoggerError)) :=
  ⟨rfl, C6_reinit_fails ['p'] .debug true ⟨some ⟨[], false⟩, .info, [['a']]⟩ ⟨[], false⟩ rfl⟩

/-- C7: the encoded byte sequence of any Record contains no control
character at all — newlines and control characters in target and body are
escaped — hence no unescaped line-terminator byte, and it does not end
with a line terminator; the writer appends exactly one line-terminator
byte after the encoded record. -/
theorem C7_framing (e : LogEntry) (maxLevel : LevelFilter) (elapsed : Duration)
    (st : Logger) (record : LogRecord) (hp : st.poisoned = false)
    (hen : Logger.enabled maxLevel record.level = true) :
    (∀ c ∈ encodeLogEntry e, 0x20 ≤ c.toNat) ∧
    '\n' ∉ encodeLogEntry e ∧
    (encodeLogEntry e).getLast? ≠ some '\n' ∧
    (Logger.log maxLevel elapsed ⟨true, true⟩ st record).2.dest =
      st.dest ++ encodeLogEntryArgs ⟨elapsed, record.level, record.target, record.args⟩
        ++ ['\n'] := by
  refine ⟨encode_no_control e, encode_no_newline e, ?_, ?_⟩
  · intro hlast
    exact encode_no_newline e (List.mem_of_getLast?_eq_some hlast)
  · rw [log_enabled_ok maxLevel elapsed st record hp hen]

/-- C7 witness: the framing facts at a concrete record and a concrete
enabled write. -/
theorem C7_witness :
    (Logger.mk [] false).poisoned = false ∧
    Logger.enabled .trace Level.warn = true ∧
    ((∀ c ∈ encodeLogEntry ⟨⟨1, 2⟩, .warn, "t\n".toList, "b\x02".toList⟩, 0x20 ≤ c.toNat) ∧
     '\n' ∉ encodeLogEntry ⟨⟨1, 2⟩, .warn, "t\n".toList, "b\x02".toList⟩ ∧
     (encodeLogEntry ⟨⟨1, 2⟩, .warn, "t\n".toList, "b\x02".toList⟩).getLast? ≠ some '\n' ∧
     (Logger.log .trace ⟨9, 9⟩ ⟨true, true⟩ ⟨[], false⟩
        ⟨.warn, "app".toList, ⟨["m".toList]⟩⟩).2.dest =
       (Logger.mk [] false).dest ++
         encodeLogEntryArgs ⟨⟨9, 9⟩, .warn, "app".toList, ⟨["m".toList]⟩⟩ ++ ['\n']) :=
  ⟨rfl, rfl, C7_framing ⟨⟨1, 2⟩, .warn, "t\n".toList, "b\x02".toList⟩ .trace ⟨9, 9⟩
    ⟨[], false⟩ ⟨.warn, "app".toList, ⟨["m".toList]⟩⟩ rfl rfl⟩

/-- C8: serializing the deferred-rendering view (`LogEntryArgs`, whose
body is a lazily rendered `fmt::Arguments`) produces byte-identical output
to serializing the eagerly materialized `LogEntry` whose body is the
rendered text — for every offset, level, target and message. -/
theorem C8_deferred_rendering (a : LogEntryArgs) :
    encodeLogEntryArgs a = encodeLogEntry ⟨a.offset, a.level, a.target, a.body.render⟩ :=
  encodeLogEntryArgs_eq a

/-- C9: each of the five severities encodes to exactly its uppercase name
and that uppercase name decodes back to the same severity. -/
theorem C9_severity_labels :
    (levelName .trace = "TRACE".toList ∧ levelName .debug = "DEBUG".toList ∧
     levelName .info = "INFO".toList ∧ levelName .warn = "WARN".toList ∧
     levelName .error = "ERROR".toList) ∧
    (∀ l, levelFromName (levelName l) = some l) :=
  ⟨by decide, levelFromName_levelName⟩

/-- C10: `init` creates and truncates the file before checking whether a
global sink is installed, so when it fails with the installation error the
file at the path has nevertheless been created/truncated — the failure is
not atomic with respect to the filesystem. -/
theorem C10_create_before_install (path : List Char) (level : LevelFilter)
    (gs : GlobalLogState) (L : Logger) (h : gs.logger = some L) :
    init path level true gs =
      (.error .setLoggerError, { gs with filesCreated := gs.filesCreated ++ [path] }) := by
  unfold init
  simp [h]

/-- C10 witness: the non-atomic failure at a concrete state — the error is
returned and the path has been recorded as created/truncated. -/
theorem C10_witness :
    (⟨some ⟨[], false⟩, .warn, []⟩ : GlobalLogState).logger = some ⟨[], false⟩ ∧
    init "log.gz".toList .info true ⟨some ⟨[], false⟩, .warn, []⟩ =
      (.error .setLoggerError, ⟨some ⟨[], false⟩, .warn, [] ++ ["log.gz".toList]⟩) :=
  ⟨rfl, C10_create_before_install "log.gz".toList .info ⟨some ⟨[], false⟩, .warn, []⟩
    ⟨[], false⟩ rfl⟩
